import Mathlib

/-!
Shallow embedding of the DMA driver in `src/dma.rs` (STM32L0 DMA interface).

The hardware register block of the DMA peripheral is modelled explicitly:
the shared channel-selection register `CSELR` is a single 32-bit word carved
into 4-bit request-selector fields (one per channel), and the per-channel
registers `CPARx`, `CMARx`, `CNDTRx`, `CCRx` together with the per-channel
`ISR` flags (transfer complete `TCIFx`, transfer error `TEIFx`) are maps
indexed by the channel number `Fin 7`.

Every software register access and every compiler fence is additionally
recorded in an event log, so that ordering properties of the driver's
effect sequences can be stated directly.  Hardware activity (the DMA engine
setting completion or error flags) is modelled as an explicit list of
events interleaved between iterations of the busy-wait loop of
`Transfer.wait`; an empty remaining event list with the loop still running
models the (diverging) busy wait as `none`.
-/

namespace Dma

/-- Fields of one channel's control register `CCRx`, as written by the driver.
A `write` access of the register resets every field that is not mentioned,
in particular the channel-enable bit `en`. -/
structure CCR where
  en : Bool
  mem2mem : Bool
  pl : Nat
  msize : Nat
  psize : Nat
  minc : Bool
  pinc : Bool
  circ : Bool
  dir : Bool
  teie : Bool
  htie : Bool
  tcie : Bool
deriving DecidableEq

/-- Software-visible events: compiler fences and register accesses, in
program order.  Write events record the value written. -/
inductive Ev where
  | fence
  | rdIsr
  | wrIfcrCtcif (c : Fin 7)
  | wrIfcrCteif (c : Fin 7)
  | rdCselr
  | wrCselr (v : Nat)
  | wrCpar (c : Fin 7) (v : Nat)
  | wrCmar (c : Fin 7) (v : Nat)
  | wrCndtr (c : Fin 7) (v : Nat)
  | rdCcr (c : Fin 7)
  | wrCcr (c : Fin 7) (v : CCR)
deriving DecidableEq

/-- The DMA peripheral's register state. -/
structure DmaRegs where
  cselr : Nat
  cpar : Fin 7 → Nat
  cmar : Fin 7 → Nat
  cndtr : Fin 7 → Nat
  ccr : Fin 7 → CCR
  tcif : Fin 7 → Bool
  teif : Fin 7 → Bool

/-- Full machine state of the embedding: registers plus the event log. -/
structure S where
  regs : DmaRegs
  log : List Ev

/-- Request-selector field of channel `c` inside the shared `CSELR` word
(bits `4c .. 4c+3`). -/
def getCs (c : Fin 7) (v : Nat) : Nat :=
  v / 2 ^ (4 * c.val) % 16

/-- Replace the request-selector field of channel `c` inside the `CSELR`
word, keeping all other bits: the arithmetic form of
`(v & !(0xF << 4c)) | ((r & 0xF) << 4c)`. -/
def setCs (c : Fin 7) (r v : Nat) : Nat :=
  v % 2 ^ (4 * c.val) + r % 16 * 2 ^ (4 * c.val)
    + v / 2 ^ (4 * c.val + 4) * 2 ^ (4 * c.val + 4)

/-- `Channel::select_target`: read-modify-write of the shared `CSELR`
register, replacing only this channel's request-selector field with the
target's request line id. -/
def Channel.select_target (c : Fin 7) (request : Nat) (s : S) : S :=
  { regs := { s.regs with cselr := setCs c request s.regs.cselr },
    log := s.log ++ [Ev.rdCselr, Ev.wrCselr (setCs c request s.regs.cselr)] }

/-- `Channel::set_peripheral_address`: write `CPARx`. -/
def Channel.set_peripheral_address (c : Fin 7) (address : Nat) (s : S) : S :=
  { regs := { s.regs with cpar := Function.update s.regs.cpar c address },
    log := s.log ++ [Ev.wrCpar c address] }

/-- `Channel::set_memory_address`: write `CMARx`. -/
def Channel.set_memory_address (c : Fin 7) (address : Nat) (s : S) : S :=
  { regs := { s.regs with cmar := Function.update s.regs.cmar c address },
    log := s.log ++ [Ev.wrCmar c address] }

/-- `Channel::set_transfer_len`: write `CNDTRx`. -/
def Channel.set_transfer_len (c : Fin 7) (len : Nat) (s : S) : S :=
  { regs := { s.regs with cndtr := Function.update s.regs.cndtr c len },
    log := s.log ++ [Ev.wrCndtr c len] }

/-- The control-register value written by `Channel::configure`: a `write`
access, so the unmentioned `en` field takes its reset value `false`. -/
def ccrConfig (dir : Bool) : CCR :=
  { en := false, mem2mem := false, pl := 0, msize := 0, psize := 0,
    minc := true, pinc := false, circ := false, dir := dir,
    teie := false, htie := false, tcie := false }

/-- `Channel::configure`: write `CCRx` with the fixed polling-mode
configuration and the given direction bit. -/
def Channel.configure (c : Fin 7) (dir : Bool) (s : S) : S :=
  { regs := { s.regs with ccr := Function.update s.regs.ccr c (ccrConfig dir) },
    log := s.log ++ [Ev.wrCcr c (ccrConfig dir)] }

/-- `Channel::start`: read-modify-write of `CCRx` setting the
channel-enable bit. -/
def Channel.start (c : Fin 7) (s : S) : S :=
  { regs := { s.regs with
      ccr := Function.update s.regs.ccr c { s.regs.ccr c with en := true } },
    log := s.log ++ [Ev.rdCcr c, Ev.wrCcr c { s.regs.ccr c with en := true }] }

/-- `Channel::is_active`: read `ISR`; if this channel's transfer-complete
flag is set, clear it through `IFCR`, disable the channel and report
`false`; otherwise report `true`. -/
def Channel.is_active (c : Fin 7) (s : S) : Bool × S :=
  if s.regs.tcif c then
    (false,
      { regs := { s.regs with
          tcif := Function.update s.regs.tcif c false,
          ccr := Function.update s.regs.ccr c { s.regs.ccr c with en := false } },
        log := s.log ++ [Ev.rdIsr, Ev.wrIfcrCtcif c, Ev.rdCcr c,
          Ev.wrCcr c { s.regs.ccr c with en := false }] })
  else
    (true, { s with log := s.log ++ [Ev.rdIsr] })

/-- `Channel::error_occured`: read `ISR`; if this channel's transfer-error
flag is set, clear it through `IFCR` and report `true`; otherwise report
`false` without writing any register. -/
def Channel.error_occured (c : Fin 7) (s : S) : Bool × S :=
  if s.regs.teif c then
    (true,
      { regs := { s.regs with teif := Function.update s.regs.teif c false },
        log := s.log ++ [Ev.rdIsr, Ev.wrIfcrCteif c] })
  else
    (false, { s with log := s.log ++ [Ev.rdIsr] })

/-- `compiler_fence(Ordering::SeqCst)`: a pure ordering event. -/
def compiler_fence (s : S) : S :=
  { s with log := s.log ++ [Ev.fence] }

/-- A `Target`: carries the request line id `T::REQUEST`. -/
structure Target where
  request : Nat
deriving DecidableEq

/-- A pinned byte buffer: a stable starting address and its contents. -/
structure Buffer where
  addr : Nat
  data : List Nat
deriving DecidableEq

/-- The `{Target, Channel, Buffer}` resource triple. -/
structure TransferResources where
  target : Target
  channel : Fin 7
  buffer : Buffer
deriving DecidableEq

/-- The `Error` unit type returned on a failed transfer. -/
structure Error
deriving DecidableEq

/-- The type-state tags of a transfer. -/
inductive TState where
  | Ready
  | Started
deriving DecidableEq

/-- `Transfer<T, C, B, State>`: the resource triple plus a type-state tag. -/
structure Transfer (st : TState) where
  res : TransferResources
deriving DecidableEq

/-- Direction bit for a memory-to-peripheral transfer (`DIRW::FROMMEMORY`). -/
def FROMMEMORY : Bool := true

/-- Direction bit for a peripheral-to-memory transfer
(`DIRW::FROMPERIPHERAL`). -/
def FROMPERIPHERAL : Bool := false

/-- `Transfer::new`: assert the buffer length bound, then program the
channel registers in source order and return a `Ready` transfer.  A panic
of the assertion is modelled as `none` with the state untouched — the
assertion precedes every register access. -/
def Transfer.new (target : Target) (channel : Fin 7) (buffer : Buffer)
    (address : Nat) (dir : Bool) (s : S) : Option (Transfer .Ready) × S :=
  if buffer.data.length ≤ 65535 then
    let s1 := Channel.select_target channel target.request s
    let s2 := Channel.set_peripheral_address channel address s1
    let s3 := Channel.set_memory_address channel buffer.addr s2
    let s4 := Channel.set_transfer_len channel buffer.data.length s3
    let s5 := Channel.configure channel dir s4
    (some { res := { target := target, channel := channel, buffer := buffer } }, s5)
  else
    (none, s)

/-- `Transfer::memory_to_peripheral`: `Transfer::new` with direction
`FROMMEMORY`. -/
def Transfer.memory_to_peripheral (target : Target) (channel : Fin 7)
    (buffer : Buffer) (address : Nat) (s : S) : Option (Transfer .Ready) × S :=
  Transfer.new target channel buffer address FROMMEMORY s

/-- `Transfer::peripheral_to_memory`: `Transfer::new` with direction
`FROMPERIPHERAL`. -/
def Transfer.peripheral_to_memory (target : Target) (channel : Fin 7)
    (buffer : Buffer) (address : Nat) (s : S) : Option (Transfer .Ready) × S :=
  Transfer.new target channel buffer address FROMPERIPHERAL s

/-- `Transfer::start`: compiler fence, then enable the channel, moving the
resources into a `Started` transfer. -/
def Transfer.start (t : Transfer .Ready) (s : S) : Transfer .Started × S :=
  ({ res := t.res }, Channel.start t.res.channel (compiler_fence s))

/-- `Transfer::is_active` on a started transfer. -/
def Transfer.is_active (t : Transfer .Started) (s : S) : Bool × S :=
  Channel.is_active t.res.channel s

/-- One step of hardware activity: the DMA engine may set the completion
and/or the error flag of the channel.  Hardware only ever sets `ISR` flags;
software clears them through `IFCR`. -/
structure HwEvent where
  complete : Bool
  error : Bool
deriving DecidableEq

/-- Apply one hardware event to channel `c`.  Hardware activity is not part
of the software event log. -/
def applyHw (c : Fin 7) (e : HwEvent) (s : S) : S :=
  { s with regs := { s.regs with
      tcif := if e.complete then Function.update s.regs.tcif c true else s.regs.tcif,
      teif := if e.error then Function.update s.regs.teif c true else s.regs.teif } }

/-- The busy-wait loop of `Transfer::wait`, with one hardware event
consumed between consecutive iterations.  `some (Sum.inl s)` is the early
`return Err` from inside the loop, `some (Sum.inr s)` is the normal loop
exit (`is_active` returned `false`), and `none` models the diverging busy
wait when hardware never resolves the transfer. -/
def waitLoop (c : Fin 7) : List Dma.HwEvent → S → Option (S ⊕ S)
  | evs, s =>
    match Channel.is_active c s with
    | (true, s1) =>
      match Channel.error_occured c s1 with
      | (true, s2) => some (Sum.inl s2)
      | (false, s2) =>
        match evs with
        | [] => none
        | e :: rest => waitLoop c rest (applyHw c e s2)
    | (false, s1) => some (Sum.inr s1)

/-- `Transfer::wait`: busy-poll; on the early error path return the failure
outcome; on normal loop exit issue a compiler fence, re-check the error
flag once, and return failure or success accordingly.  Both outcomes carry
the full resource triple. -/
def Transfer.wait (t : Transfer .Started) (evs : List HwEvent) (s : S) :
    Option ((TransferResources ⊕ TransferResources × Error) × S) :=
  match waitLoop t.res.channel evs s with
  | none => none
  | some (Sum.inl s1) => some (Sum.inr (t.res, Error.mk), s1)
  | some (Sum.inr s1) =>
    match Channel.error_occured t.res.channel (compiler_fence s1) with
    | (true, s3) => some (Sum.inr (t.res, Error.mk), s3)
    | (false, s3) => some (Sum.inl t.res, s3)

/-- The resource triple carried by either outcome of `Transfer::wait`. -/
def resourcesOf : TransferResources ⊕ TransferResources × Error → TransferResources
  | Sum.inl r => r
  | Sum.inr (r, _) => r

/-- A hardware flag history in which the error flag becomes set strictly
before the completion flag: some event sets the error flag, and no event up
to and including it sets the completion flag. -/
def errBeforeComplete : List HwEvent → Bool
  | [] => false
  | e :: rest => !e.complete && (e.error || errBeforeComplete rest)

/-- Per-channel register view: the channel's `CSELR` field, its four
dedicated registers and its two `ISR` flags. -/
def chanRegs (c : Fin 7) (s : S) : Nat × Nat × Nat × Nat × CCR × Bool × Bool :=
  (getCs c s.regs.cselr, s.regs.cpar c, s.regs.cmar c, s.regs.cndtr c,
    s.regs.ccr c, s.regs.tcif c, s.regs.teif c)

/-- Replacing one channel's `CSELR` field leaves every other channel's
field unchanged. -/
theorem getCs_setCs_ne (i j : Fin 7) (h : i ≠ j) (r v : Nat) :
    getCs j (setCs i r v) = getCs j v := by
  fin_cases i <;> fin_cases j <;> simp_all [getCs, setCs] <;> omega

/-- If the completion flag is set, the wait loop exits at once through the
completion branch of `is_active`. -/
theorem waitLoop_exit (c : Fin 7) (evs : List HwEvent) (s : S)
    (h : s.regs.tcif c = true) :
    waitLoop c evs s = some (Sum.inr (Channel.is_active c s).2) := by
  rw [waitLoop]
  simp [Channel.is_active, h]

/-- If the completion flag is clear and the error flag is set, the wait
loop returns early through the in-loop error branch, clearing only the
error flag. -/
theorem waitLoop_errStep (c : Fin 7) (evs : List HwEvent) (s : S)
    (h1 : s.regs.tcif c = false) (h2 : s.regs.teif c = true) :
    waitLoop c evs s = some (Sum.inl
      { regs := { s.regs with teif := Function.update s.regs.teif c false },
        log := s.log ++ [Ev.rdIsr, Ev.rdIsr, Ev.wrIfcrCteif c] }) := by
  rw [waitLoop]
  simp [Channel.is_active, Channel.error_occured, h1, h2]

/-- With both flags clear and no hardware activity left, the busy wait
diverges. -/
theorem waitLoop_nil (c : Fin 7) (s : S)
    (h1 : s.regs.tcif c = false) (h2 : s.regs.teif c = false) :
    waitLoop c [] s = none := by
  rw [waitLoop]
  simp [Channel.is_active, Channel.error_occured, h1, h2]

/-- With both flags clear, one loop iteration consumes one hardware event. -/
theorem waitLoop_cons (c : Fin 7) (e : HwEvent) (evs : List HwEvent) (s : S)
    (h1 : s.regs.tcif c = false) (h2 : s.regs.teif c = false) :
    waitLoop c (e :: evs) s =
      waitLoop c evs (applyHw c e { s with log := s.log ++ [Ev.rdIsr, Ev.rdIsr] }) := by
  rw [waitLoop]
  simp [Channel.is_active, Channel.error_occured, h1, h2]

/-- Under a flag history whose error flag is set before any completion
flag, the wait loop terminates through the in-loop error branch. -/
theorem waitLoop_err_before (c : Fin 7) (evs : List HwEvent) :
    ∀ s : S, s.regs.tcif c = false → s.regs.teif c = false →
      errBeforeComplete evs = true →
      ∃ s', waitLoop c evs s = some (Sum.inl s') := by
  induction evs with
  | nil =>
    intro s _ _ hev
    simp [errBeforeComplete] at hev
  | cons e rest ih =>
    intro s h1 h2 hev
    simp only [errBeforeComplete, Bool.and_eq_true, Bool.not_eq_true',
      Bool.or_eq_true] at hev
    obtain ⟨hc, herr⟩ := hev
    rw [waitLoop_cons c e rest s h1 h2]
    have htc : (applyHw c e { s with log := s.log ++ [Ev.rdIsr, Ev.rdIsr] }).regs.tcif c
        = false := by
      simp [applyHw, hc, h1]
    cases he : e.error with
    | true =>
      have hte : (applyHw c e { s with log := s.log ++ [Ev.rdIsr, Ev.rdIsr] }).regs.teif c
          = true := by
        simp [applyHw, he]
      exact ⟨_, waitLoop_errStep c rest _ htc hte⟩
    | false =>
      have hrest : errBeforeComplete rest = true := by
        rcases herr with h | h
        · rw [he] at h; cases h
        · exact h
      have hte : (applyHw c e { s with log := s.log ++ [Ev.rdIsr, Ev.rdIsr] }).regs.teif c
          = false := by
        simp [applyHw, he, h2]
      exact ih _ htc hte hrest

/-- Both outcomes of `wait` carry exactly the resources of the transfer. -/
theorem wait_map_res (t : Transfer .Started) (evs : List HwEvent) (s : S) :
    (Transfer.wait t evs s).map (fun p => resourcesOf p.1) =
    (Transfer.wait t evs s).map (fun _ => t.res) := by
  unfold Transfer.wait
  cases h : waitLoop t.res.channel evs s with
  | none => simp
  | some x =>
    cases x with
    | inl s1 => simp [resourcesOf]
    | inr s1 =>
      cases h2 : Channel.error_occured t.res.channel (compiler_fence s1) with
      | mk b s3 => cases b <;> simp [h2, resourcesOf]

/-- Reset register state: all registers zero, both flags clear. -/
def regs0 : DmaRegs :=
  { cselr := 0, cpar := fun _ => 0, cmar := fun _ => 0, cndtr := fun _ => 0,
    ccr := fun _ => ccrConfig false, tcif := fun _ => false, teif := fun _ => false }

/-- A quiescent state with an empty event log. -/
def sClean : S := { regs := regs0, log := [] }

/-- Channel 0 enabled and its transfer-complete flag set by hardware. -/
def sDone : S :=
  { regs := { regs0 with
      ccr := Function.update regs0.ccr 0 { ccrConfig false with en := true },
      tcif := Function.update regs0.tcif 0 true },
    log := [] }

/-- Channel 0 with its transfer-error flag set by hardware. -/
def sErr : S :=
  { regs := { regs0 with teif := Function.update regs0.teif 0 true }, log := [] }

/-- A started transfer on channel 0. -/
def tStart0 : Transfer .Started :=
  { res := { target := { request := 0 }, channel := 0,
             buffer := { addr := 0, data := [] } } }

/-- A ready transfer on channel 0 holding a one-byte buffer. -/
def tr0 : Transfer .Ready :=
  { res := { target := { request := 1 }, channel := 0,
             buffer := { addr := 2, data := [9] } } }

/-- Claim C1: the claim says that once `is_active` has observed the
completion flag (clearing it, disabling the channel and returning `false`),
every subsequent call before a new `start` also returns `false`.  The code
violates this: the first observation clears the completion flag through
`IFCR`, so the second read of `ISR` finds the flag clear and `is_active`
returns `true` again, and `wait` called after that first observation
busy-loops forever (modelled as `none`) instead of returning immediately as
its own documentation promises. -/
theorem is_active_not_idempotent :
    (Channel.is_active 0 sDone).1 = false ∧
    (Channel.is_active 0 sDone).2.regs.tcif 0 = false ∧
    ((Channel.is_active 0 sDone).2.regs.ccr 0).en = false ∧
    (Channel.is_active 0 (Channel.is_active 0 sDone).2).1 = true ∧
    Transfer.wait tStart0 [] (Channel.is_active 0 sDone).2 = none :=
  ⟨by decide, by decide, by decide, by decide, rfl⟩

/-- Claim C2: for every buffer of length at most 65535, `Transfer::new`
succeeds and returns a `Ready` transfer holding exactly the given
resources; for any longer buffer the construction aborts (the assertion
panics, modelled as `none`) with the machine state — registers and event
log — completely untouched. -/
theorem transfer_new_length_check (tg : Target) (ch : Fin 7) (b : Buffer)
    (a : Nat) (d : Bool) (s : S) :
    (b.data.length ≤ 65535 →
      (Transfer.new tg ch b a d s).1 =
        some { res := { target := tg, channel := ch, buffer := b } }) ∧
    (65535 < b.data.length → Transfer.new tg ch b a d s = (none, s)) := by
  constructor
  · intro h
    simp [Transfer.new, h]
  · intro h
    have hn : ¬ b.data.length ≤ 65535 := Nat.not_le.mpr h
    simp [Transfer.new, hn]

/-- A buffer one byte past the 16-bit transfer-count limit. -/
def bigBuffer : Buffer := { addr := 0, data := List.replicate 65536 0 }

/-- Witness for C2 at a one-byte buffer and at a 65536-byte buffer. -/
theorem transfer_new_length_check_witness :
    ((Transfer.new { request := 1 } 0 { addr := 2, data := [9] } 5 true sClean).1 =
      some { res := { target := { request := 1 }, channel := 0,
                      buffer := { addr := 2, data := [9] } } }) ∧
    Transfer.new { request := 1 } 0 bigBuffer 5 true sClean = (none, sClean) :=
  ⟨(transfer_new_length_check { request := 1 } 0 { addr := 2, data := [9] } 5 true sClean).1
      (by decide),
   (transfer_new_length_check { request := 1 } 0 bigBuffer 5 true sClean).2
      (by norm_num [bigBuffer])⟩

/-- Claim C3: starting with both hardware flags clear, under every flag
history in which the error flag becomes set before the completion flag,
`wait` returns the failure outcome carrying the full resource triple and
never the success outcome. -/
theorem wait_error_precedence (t : Transfer .Started) (evs : List HwEvent) (s : S)
    (h1 : s.regs.tcif t.res.channel = false) (h2 : s.regs.teif t.res.channel = false)
    (hev : errBeforeComplete evs = true) :
    (Transfer.wait t evs s).map Prod.fst = some (Sum.inr (t.res, Error.mk)) := by
  obtain ⟨s', hs'⟩ := waitLoop_err_before t.res.channel evs s h1 h2 hev
  simp [Transfer.wait, hs']

/-- Witness for C3: hardware reports an error on the second poll. -/
theorem wait_error_precedence_witness :
    (Transfer.wait tStart0
        [{ complete := false, error := false }, { complete := false, error := true }]
        sClean).map Prod.fst =
      some (Sum.inr (tStart0.res, Error.mk)) :=
  wait_error_precedence tStart0
    [{ complete := false, error := false }, { complete := false, error := true }]
    sClean rfl rfl (by decide)

/-- Claim C4: for every transfer built by `Transfer::new` from a given
target, channel and buffer, then started, both outcomes of `wait` carry
exactly that target, that channel and that buffer. -/
theorem wait_roundtrip (tg : Target) (ch : Fin 7) (b : Buffer) (a : Nat) (d : Bool)
    (s0 sA : S) (evs : List HwEvent) (tr : Transfer .Ready)
    (htr : (Transfer.new tg ch b a d s0).1 = some tr) :
    (Transfer.wait (Transfer.start tr sA).1 evs (Transfer.start tr sA).2).map
        (fun p => resourcesOf p.1) =
      (Transfer.wait (Transfer.start tr sA).1 evs (Transfer.start tr sA).2).map
        (fun _ => { target := tg, channel := ch, buffer := b }) := by
  have hres : tr.res = ({ target := tg, channel := ch, buffer := b } : TransferResources) := by
    by_cases hlen : b.data.length ≤ 65535
    · simp [Transfer.new, hlen] at htr
      simp [← htr]
    · have hn : ¬ b.data.length ≤ 65535 := hlen
      simp [Transfer.new, hn] at htr
  rw [wait_map_res]
  simp [Transfer.start, hres]

/-- Witness for C4: a one-byte transfer resolved by a completion event. -/
theorem wait_roundtrip_witness :
    (Transfer.wait (Transfer.start tr0 sClean).1 [{ complete := true, error := false }]
        (Transfer.start tr0 sClean).2).map (fun p => resourcesOf p.1) =
      (Transfer.wait (Transfer.start tr0 sClean).1 [{ complete := true, error := false }]
        (Transfer.start tr0 sClean).2).map
        (fun _ => { target := { request := 1 }, channel := 0,
                    buffer := { addr := 2, data := [9] } }) :=
  wait_roundtrip { request := 1 } 0 { addr := 2, data := [9] } 5 true sClean sClean
    [{ complete := true, error := false }] tr0 rfl

/-- Claim C5: `start` issues the compiler fence strictly before the
read-modify-write of `CCRx` that sets the enable bit; and when the wait
loop exits normally, `wait` issues a second fence strictly before the final
`ISR` read whose error-flag value decides the outcome (set gives failure,
clear gives success). -/
theorem barriers_ordering :
    (∀ (tr : Transfer .Ready) (s : S),
      (Transfer.start tr s).2.log = s.log ++
        [Ev.fence, Ev.rdCcr tr.res.channel,
          Ev.wrCcr tr.res.channel { s.regs.ccr tr.res.channel with en := true }]) ∧
    (∀ (t : Transfer .Started) (evs : List HwEvent) (s s1 : S),
      waitLoop t.res.channel evs s = some (Sum.inr s1) →
      Transfer.wait t evs s = some (
        if s1.regs.teif t.res.channel then
          (Sum.inr (t.res, Error.mk),
            { regs := { s1.regs with
                teif := Function.update s1.regs.teif t.res.channel false },
              log := s1.log ++ [Ev.fence, Ev.rdIsr, Ev.wrIfcrCteif t.res.channel] })
        else
          (Sum.inl t.res,
            { regs := s1.regs, log := s1.log ++ [Ev.fence, Ev.rdIsr] }))) := by
  constructor
  · intro tr s
    simp [Transfer.start, Channel.start, compiler_fence]
  · intro t evs s s1 h
    by_cases hte : s1.regs.teif t.res.channel
    · simp [Transfer.wait, h, Channel.error_occured, compiler_fence, hte]
    · simp only [Bool.not_eq_true] at hte
      simp [Transfer.wait, h, Channel.error_occured, compiler_fence, hte]

/-- Witness for C5: `start` from the quiescent state, and a `wait` whose
loop exits on its first poll because the completion flag is already set. -/
theorem barriers_ordering_witness :
    (Transfer.start tr0 sClean).2.log = sClean.log ++
      [Ev.fence, Ev.rdCcr 0, Ev.wrCcr 0 { sClean.regs.ccr 0 with en := true }] ∧
    Transfer.wait tStart0 [] sDone = some (Sum.inl tStart0.res,
      { regs := (Channel.is_active 0 sDone).2.regs,
        log := (Channel.is_active 0 sDone).2.log ++ [Ev.fence, Ev.rdIsr] }) := by
  refine ⟨barriers_ordering.1 tr0 sClean, ?_⟩
  have h2 := barriers_ordering.2 tStart0 [] sDone (Channel.is_active 0 sDone).2
    (waitLoop_exit 0 [] sDone rfl)
  simpa using h2

/-- Claim C6: `configure` writes the channel's control register with
exactly the fixed polling-mode field values — memory-to-memory disabled,
low priority, 8-bit word sizes, memory increment enabled, peripheral
increment disabled, circular mode disabled, the given direction bit, and
all three interrupt enables cleared (the unmentioned enable bit takes its
reset value) — and logs exactly that one register write. -/
theorem configure_fields (c : Fin 7) (d : Bool) (s : S) :
    (Channel.configure c d s).regs.ccr c =
      { en := false, mem2mem := false, pl := 0, msize := 0, psize := 0,
        minc := true, pinc := false, circ := false, dir := d,
        teie := false, htie := false, tcie := false } ∧
    (Channel.configure c d s).log = s.log ++
      [Ev.wrCcr c { en := false, mem2mem := false, pl := 0, msize := 0, psize := 0,
                    minc := true, pinc := false, circ := false, dir := d,
                    teie := false, htie := false, tcie := false }] := by
  constructor <;> simp [Channel.configure, ccrConfig]

/-- Claim C7: `error_occured` returns exactly the value of the channel's
transfer-error flag; when the flag is set it clears it (so an immediately
repeated call returns `false`), and when the flag is clear it changes
nothing but the log, which records only the `ISR` read — no register
write. -/
theorem error_occured_spec (c : Fin 7) (s : S) :
    ((Channel.error_occured c s).1 = s.regs.teif c) ∧
    (s.regs.teif c = true →
      (Channel.error_occured c s).2 =
        { regs := { s.regs with teif := Function.update s.regs.teif c false },
          log := s.log ++ [Ev.rdIsr, Ev.wrIfcrCteif c] } ∧
      (Channel.error_occured c (Channel.error_occured c s).2).1 = false) ∧
    (s.regs.teif c = false →
      (Channel.error_occured c s).2 = { s with log := s.log ++ [Ev.rdIsr] }) := by
  refine ⟨?_, ?_, ?_⟩
  · by_cases h : s.regs.teif c <;> simp [Channel.error_occured, h]
  · intro h
    refine ⟨by simp [Channel.error_occured, h], ?_⟩
    simp [Channel.error_occured, h]
  · intro h
    simp [Channel.error_occured, h]

/-- Witness for C7 at a set error flag and at a clear one. -/
theorem error_occured_spec_witness :
    ((Channel.error_occured 0 sErr).2 =
        { regs := { sErr.regs with teif := Function.update sErr.regs.teif 0 false },
          log := sErr.log ++ [Ev.rdIsr, Ev.wrIfcrCteif 0] } ∧
      (Channel.error_occured 0 (Channel.error_occured 0 sErr).2).1 = false) ∧
    (Channel.error_occured 0 sClean).2 = { sClean with log := sClean.log ++ [Ev.rdIsr] } :=
  ⟨(error_occured_spec 0 sErr).2.1 rfl, (error_occured_spec 0 sClean).2.2 rfl⟩

/-- Claim C8: every channel-capability operation on channel `i` leaves the
whole register view of any other channel `j` unchanged — including `j`'s
request-selector field inside the shared `CSELR` register, which the
read-modify-write of `select_target` preserves. -/
theorem channel_frame (i j : Fin 7) (h : i ≠ j) (req a m l : Nat) (d : Bool) (s : S) :
    chanRegs j (Channel.select_target i req s) = chanRegs j s ∧
    chanRegs j (Channel.set_peripheral_address i a s) = chanRegs j s ∧
    chanRegs j (Channel.set_memory_address i m s) = chanRegs j s ∧
    chanRegs j (Channel.set_transfer_len i l s) = chanRegs j s ∧
    chanRegs j (Channel.configure i d s) = chanRegs j s ∧
    chanRegs j (Channel.start i s) = chanRegs j s ∧
    chanRegs j (Channel.is_active i s).2 = chanRegs j s ∧
    chanRegs j (Channel.error_occured i s).2 = chanRegs j s := by
  have hj : j ≠ i := Ne.symm h
  refine ⟨?_, ?_, ?_, ?_, ?_, ?_, ?_, ?_⟩
  · simp [chanRegs, Channel.select_target, getCs_setCs_ne i j h]
  · simp [chanRegs, Channel.set_peripheral_address, Function.update_noteq hj]
  · simp [chanRegs, Channel.set_memory_address, Function.update_noteq hj]
  · simp [chanRegs, Channel.set_transfer_len, Function.update_noteq hj]
  · simp [chanRegs, Channel.configure, Function.update_noteq hj]
  · simp [chanRegs, Channel.start, Function.update_noteq hj]
  · by_cases ht : s.regs.tcif i <;>
      simp [chanRegs, Channel.is_active, ht, Function.update_noteq hj]
  · by_cases ht : s.regs.teif i <;>
      simp [chanRegs, Channel.error_occured, ht, Function.update_noteq hj]

/-- A state with distinctive per-channel register values and both flags of
every channel set, so that the flag-clearing branches are exercised. -/
def sMix : S :=
  { regs := { cselr := 19088743, cpar := fun k => 100 + k.val,
              cmar := fun k => 200 + k.val, cndtr := fun k => 10 + k.val,
              ccr := fun _ => ccrConfig true,
              tcif := fun _ => true, teif := fun _ => true },
    log := [] }

/-- Witness for C8 with channel 0 operated on and channel 1 observed. -/
theorem channel_frame_witness :
    chanRegs 1 (Channel.select_target 0 9 sMix) = chanRegs 1 sMix ∧
    chanRegs 1 (Channel.set_peripheral_address 0 5 sMix) = chanRegs 1 sMix ∧
    chanRegs 1 (Channel.set_memory_address 0 3 sMix) = chanRegs 1 sMix ∧
    chanRegs 1 (Channel.set_transfer_len 0 4 sMix) = chanRegs 1 sMix ∧
    chanRegs 1 (Channel.configure 0 true sMix) = chanRegs 1 sMix ∧
    chanRegs 1 (Channel.start 0 sMix) = chanRegs 1 sMix ∧
    chanRegs 1 (Channel.is_active 0 sMix).2 = chanRegs 1 sMix ∧
    chanRegs 1 (Channel.error_occured 0 sMix).2 = chanRegs 1 sMix :=
  channel_frame 0 1 (by decide) 9 5 3 4 true sMix

/-- Claim C9: on a successful construction the register programming is
logged in exactly the source order — target selection on the shared
`CSELR` (read then write), peripheral address, memory address (the
buffer's starting address), transfer length (the buffer's length), and
finally the control register. -/
theorem new_program_order (tg : Target) (ch : Fin 7) (b : Buffer) (a : Nat)
    (d : Bool) (s : S) (h : b.data.length ≤ 65535) :
    (Transfer.new tg ch b a d s).2.log = s.log ++
      [Ev.rdCselr, Ev.wrCselr (setCs ch tg.request s.regs.cselr),
        Ev.wrCpar ch a, Ev.wrCmar ch b.addr, Ev.wrCndtr ch b.data.length,
        Ev.wrCcr ch (ccrConfig d)] := by
  simp [Transfer.new, h, Channel.select_target, Channel.set_peripheral_address,
    Channel.set_memory_address, Channel.set_transfer_len, Channel.configure]

/-- Witness for C9 at a one-byte buffer. -/
theorem new_program_order_witness :
    (Transfer.new { request := 1 } 0 { addr := 2, data := [9] } 5 true sClean).2.log =
      sClean.log ++
      [Ev.rdCselr, Ev.wrCselr (setCs 0 1 sClean.regs.cselr),
        Ev.wrCpar 0 5, Ev.wrCmar 0 2, Ev.wrCndtr 0 1, Ev.wrCcr 0 (ccrConfig true)] :=
  new_program_order { request := 1 } 0 { addr := 2, data := [9] } 5 true sClean (by decide)

/-- Claim C10: when the wait loop observes the error flag while the
completion flag is still clear, `wait` returns the failure outcome with the
error flag cleared and every other register bit — in particular the
channel-enable bit and the completion flag — untouched; the logged writes
are the single `IFCR` error-flag clear. -/
theorem wait_inloop_error_frame (t : Transfer .Started) (evs : List HwEvent) (s : S)
    (h1 : s.regs.tcif t.res.channel = false) (h2 : s.regs.teif t.res.channel = true) :
    Transfer.wait t evs s = some (Sum.inr (t.res, Error.mk),
      { regs := { s.regs with
          teif := Function.update s.regs.teif t.res.channel false },
        log := s.log ++ [Ev.rdIsr, Ev.rdIsr, Ev.wrIfcrCteif t.res.channel] }) := by
  have h := waitLoop_errStep t.res.channel evs s h1 h2
  simp [Transfer.wait, h]

/-- Witness for C10: an error flagged on a started channel. -/
theorem wait_inloop_error_frame_witness :
    Transfer.wait tStart0 [] sErr = some (Sum.inr (tStart0.res, Error.mk),
      { regs := { sErr.regs with teif := Function.update sErr.regs.teif 0 false },
        log := sErr.log ++ [Ev.rdIsr, Ev.rdIsr, Ev.wrIfcrCteif 0] }) :=
  wait_inloop_error_frame tStart0 [] sErr rfl rfl

end Dma
